import Mathlib

/-!
Verification development for the Epic Games OAuth2 callback worker
(`worker/src/index.ts` of the epic-auth-login-boilerplate repository).

The worker's single `fetch` handler is shallowly embedded as the pure
function `fetchHandler` below.  Platform primitives are modelled as
follows:

* `atob` is modelled by `atobBytes`, implementing the WHATWG
  forgiving-base64 decode (strip ASCII whitespace; when the length is a
  multiple of four, strip up to two trailing `=`; reject length ≡ 1 mod 4
  and characters outside the base64 alphabet; discard leftover bits).
  The decoded binary string is represented by its list of byte values.
* `crypto.subtle.importKey` / `crypto.subtle.verify` and `JSON.parse`
  are engine functions whose results the handler only branches on; they
  are modelled as oracle fields of the `World` structure, which also
  carries the two upstream HTTP responses of a request.
* WHATWG `URL` is modelled on the subset of inputs the deployed
  configuration uses: `isNormalizedBaseUrl` is a conservative sufficient
  condition for an absolute http(s) URL string without query or fragment
  that the URL parser round-trips verbatim.  `new URL` on a string
  outside this subset is modelled as throwing (`Resp.thrown`).
  `URLSearchParams` serialization (`application/x-www-form-urlencoded`,
  space encoded as `+`) is `formUrlEncode`; the `hash` setter's fragment
  percent-encode set (C0 controls, space, `"`, `<`, `>`, backtick, and
  non-ASCII) together with its removal of tab/LF/CR is `encodeFragment`.
* Exceptions thrown inside the handler's `try` block are the `.error`
  side of an `Except`; the `catch` block is the final match in
  `callbackRoute`.  Engine-specific exception messages are modelled by
  fixed placeholder strings; no theorem depends on their text.

Outbound network requests are recorded in a trace (`List NetCall`).
-/

/-! ## Characters, hex and percent-encoding -/

/-- Uppercase hexadecimal digit for a value below 16 (used by the
percent-encoders). -/
def hexDigit (n : Nat) : Char :=
  if n < 10 then Char.ofNat (48 + n) else Char.ofNat (65 + (n - 10))

/-- Percent-escape of one byte, e.g. `%3A` for 58. -/
def percentByte (b : Nat) : List Char :=
  ['%', hexDigit (b / 16), hexDigit (b % 16)]

/-- UTF-8 byte sequence of a character (standard 1–4 byte encoding). -/
def utf8Bytes (c : Char) : List Nat :=
  let n := c.toNat
  if n < 0x80 then [n]
  else if n < 0x800 then [0xC0 + n / 64, 0x80 + n % 64]
  else if n < 0x10000 then
    [0xE0 + n / 4096, 0x80 + n / 64 % 64, 0x80 + n % 64]
  else
    [0xF0 + n / 262144, 0x80 + n / 4096 % 64, 0x80 + n / 64 % 64, 0x80 + n % 64]

/-- Characters kept verbatim by ECMAScript `encodeURIComponent`:
alphanumerics and `- _ . ! ~ * ' ( )`. -/
def uricUnreserved (c : Char) : Bool :=
  c.isAlpha || c.isDigit || c = '-' || c = '_' || c = '.' || c = '!' ||
  c = '~' || c = '*' || c = '\'' || c = '(' || c = ')'

/-- Model of ECMAScript `encodeURIComponent`: unreserved characters kept,
every other character percent-encoded byte-wise over UTF-8. -/
def encodeURIComponent (s : String) : String :=
  String.mk (s.data.foldr
    (fun c acc => (if uricUnreserved c then [c] else (utf8Bytes c).flatMap percentByte) ++ acc) [])

/-- Bytes kept verbatim by the `application/x-www-form-urlencoded`
serializer: alphanumerics and `* - . _`. -/
def formSafe (c : Char) : Bool :=
  c.isAlpha || c.isDigit || c = '*' || c = '-' || c = '.' || c = '_'

/-- Model of `URLSearchParams` serialization of one string
(`application/x-www-form-urlencoded` percent-encode set): safe bytes kept,
space encoded as `+`, every other character percent-encoded over UTF-8. -/
def formUrlEncode (s : String) : String :=
  String.mk (s.data.foldr
    (fun c acc =>
      (if formSafe c then [c]
       else if c = ' ' then ['+']
       else (utf8Bytes c).flatMap percentByte) ++ acc) [])

/-- Characters the WHATWG URL `hash` setter keeps verbatim: printable
ASCII outside the fragment percent-encode set (which holds C0 controls,
space, `"`, `<`, `>`, the backtick U+0060, and all non-ASCII). -/
def fragmentSafe (c : Char) : Bool :=
  let n := c.toNat
  decide (0x20 < n) && decide (n < 0x7F) &&
  c ≠ '"' && c ≠ '<' && c ≠ '>' && n ≠ 0x60

/-- Model of assigning the WHATWG URL `hash` setter input: ASCII tab,
LF and CR are removed by the URL parser; the remaining characters are
percent-encoded with the fragment percent-encode set over UTF-8. -/
def encodeFragment (s : String) : String :=
  String.mk ((s.data.filter
      (fun c => c.toNat ≠ 9 && c.toNat ≠ 10 && c.toNat ≠ 13)).foldr
    (fun c acc => (if fragmentSafe c then [c] else (utf8Bytes c).flatMap percentByte) ++ acc) [])

/-! ## Base64 and `atob` (WHATWG forgiving-base64) -/

/-- ASCII whitespace stripped by forgiving-base64: TAB, LF, FF, CR, SPACE. -/
def isB64Ws (c : Char) : Bool :=
  c.toNat = 9 || c.toNat = 10 || c.toNat = 12 || c.toNat = 13 || c.toNat = 32

/-- Value of a standard base64 alphabet character, `none` outside the
alphabet. -/
def b64Index (c : Char) : Option Nat :=
  if 'A' ≤ c ∧ c ≤ 'Z' then some (c.toNat - 65)
  else if 'a' ≤ c ∧ c ≤ 'z' then some (c.toNat - 97 + 26)
  else if '0' ≤ c ∧ c ≤ '9' then some (c.toNat - 48 + 52)
  else if c = '+' then some 62
  else if c = '/' then some 63
  else none

/-- Standard base64 alphabet character of a sextet value below 64. -/
def b64CharOf (n : Nat) : Char :=
  if n < 26 then Char.ofNat (65 + n)
  else if n < 52 then Char.ofNat (97 + (n - 26))
  else if n < 62 then Char.ofNat (48 + (n - 52))
  else if n = 62 then '+'
  else '/'

/-- Base64url alphabet character: as standard base64 but `-` and `_` for
the values 62 and 63. -/
def b64UrlCharOf (n : Nat) : Char :=
  if n = 62 then '-' else if n = 63 then '_' else b64CharOf n

/-- The source's substitution before decoding: the two global `replace`
calls mapping `-` to `+` and `_` to slash, per character. -/
def substB64Char (c : Char) : Char :=
  if c = '-' then '+' else if c = '_' then '/' else c

/-- The source's substitution before decoding, over a whole segment. -/
def substB64Url (s : String) : String :=
  String.mk (s.data.map substB64Char)

/-- The source's padding loop `while (base64.length % 4) base64 += '='`,
which appends `(4 - length mod 4) mod 4` padding characters. -/
def padB64 (s : String) : String :=
  s ++ String.mk (List.replicate ((4 - s.length % 4) % 4) '=')

/-- Forgiving-base64 step: when the length is a multiple of four, remove
up to two trailing `=`. -/
def dropTrailingEq (l : List Char) : List Char :=
  let r := l.reverse
  let r2 :=
    if r.headD ' ' = '=' then
      (if r.tail.headD ' ' = '=' then r.tail.tail else r.tail)
    else r
  r2.reverse

/-- Translate every character through `b64Index`, failing on the first
character outside the base64 alphabet. -/
def mapB64 : List Char → Option (List Nat)
  | [] => some []
  | c :: rest =>
    match b64Index c, mapB64 rest with
    | some n, some ns => some (n :: ns)
    | _, _ => none

/-- Decode a list of sextet values into bytes, four sextets to three
bytes, with forgiving-base64 remainders: two final sextets yield one byte
and three yield two, leftover bits discarded; a single final sextet is an
error. -/
def decodeB64Chunks : List Nat → Option (List Nat)
  | [] => some []
  | [_] => none
  | [x, y] => some [x * 4 + y / 16]
  | [x, y, z] => some [x * 4 + y / 16, y % 16 * 16 + z / 4]
  | x :: y :: z :: v :: rest =>
    match decodeB64Chunks rest with
    | none => none
    | some tail => some ((x * 4 + y / 16) :: (y % 16 * 16 + z / 4) :: (z % 4 * 64 + v) :: tail)

/-- Model of `atob` on a character list: the WHATWG forgiving-base64
decode, producing the byte values of the binary string. -/
def atobChars (l : List Char) : Option (List Nat) :=
  let stripped := l.filter (fun c => !isB64Ws c)
  let d := if stripped.length % 4 = 0 then dropTrailingEq stripped else stripped
  if d.length % 4 = 1 then none
  else
    match mapB64 d with
    | none => none
    | some sextets => decodeB64Chunks sextets

/-- Model of `atob` on a string. -/
def atobBytes (s : String) : Option (List Nat) :=
  atobChars s.data

/-- The source's `safeBase64UrlDecode` helper: substitute the base64url
alphabet, pad to a multiple of four and decode with `atob`; a decode
fault is caught and rethrown as an `Invalid base64url data` error (the
engine-specific message detail is not modelled). -/
def safeBase64UrlDecode (s : String) : Except String (List Nat) :=
  match atobBytes (padB64 (substB64Url s)) with
  | some bytes => .ok bytes
  | none => .error "Invalid base64url data"

/-- Base64url encoding of a byte list into sextet values: three bytes to
four sextets, a final single byte to two sextets and a final pair to
three (the unpadded encoding used by JWT segments). -/
def encodeB64Sextets : List Nat → List Nat
  | [] => []
  | [a] => [a / 4, a % 4 * 16]
  | [a, b] => [a / 4, a % 4 * 16 + b / 16, b % 16 * 4]
  | a :: b :: c :: rest =>
    (a / 4) :: (a % 4 * 16 + b / 16) :: (b % 16 * 4 + c / 64) :: (c % 64) :: encodeB64Sextets rest

/-- Unpadded base64url encoding of a byte string (the claim's reference
encoder, written from the spec's description of base64url). -/
def base64UrlEncode (bytes : List Nat) : String :=
  String.mk ((encodeB64Sextets bytes).map b64UrlCharOf)

/-! ## Generic splitting (JS `String.prototype.split` with one-character
separator, and `application/x-www-form-urlencoded` parsing) -/

/-- Split a character list at every occurrence of a separator, keeping
empty groups, as JS `split` with a one-character separator does. -/
def splitOnChar (sep : Char) : List Char → List (List Char)
  | [] => [[]]
  | c :: rest =>
    let groups := splitOnChar sep rest
    if c = sep then [] :: groups
    else
      match groups with
      | [] => [[c]]
      | g :: gs => (c :: g) :: gs

/-- Model of JS `s.split(sep)` for a one-character separator. -/
def jsSplit (sep : Char) (s : String) : List String :=
  (splitOnChar sep s.data).map String.mk

/-- Split a form-body group at its first `=` into name and value; a group
without `=` is a name with empty value. -/
def splitFirstEq : List Char → List Char × List Char
  | [] => ([], [])
  | c :: rest =>
    if c = '=' then ([], rest)
    else
      match splitFirstEq rest with
      | (n, v) => (c :: n, v)

/-- Parse an `application/x-www-form-urlencoded` body into name/value
pairs the way a receiving server does, before percent-decoding: split on
`&`, drop empty groups, split each group at its first `=`. -/
def formPairs (s : String) : List (String × String) :=
  ((splitOnChar '&' s.data).filter (fun g => !g.isEmpty)).map
    (fun g => (String.mk (splitFirstEq g).1, String.mk (splitFirstEq g).2))

/-- All values a form-body parse associates with one parameter name. -/
def formValues (k : String) (s : String) : List String :=
  ((formPairs s).filter (fun p => p.1 == k)).map (fun p => p.2)

/-! ## WHATWG URL (modelled subset) and the worker's data model -/

/-- Whether the first list is a prefix of the second, by characters. -/
def startsWithChars : List Char → List Char → Bool
  | [], _ => true
  | _ :: _, [] => false
  | p :: ps, c :: cs => p == c && startsWithChars ps cs

/-- Strip a lowercase http or https scheme, returning the rest of the
URL string. -/
def schemeRest (s : String) : Option (List Char) :=
  if startsWithChars "https://".data s.data then some (s.data.drop 8)
  else if startsWithChars "http://".data s.data then some (s.data.drop 7)
  else none

/-- Characters of an already-canonical URL authority (lowercase host,
optional port). -/
def isAuthorityChar (c : Char) : Bool :=
  c.isLower || c.isDigit || c = '.' || c = '-' || c = ':'

/-- Characters the URL path serializer keeps verbatim (a conservative
subset of printable ASCII outside the path percent-encode set). -/
def isPathChar (c : Char) : Bool :=
  c.isAlpha || c.isDigit || c = '/' || c = '-' || c = '.' || c = '_' ||
  c = '~' || c = '!' || c = '$' || c = '&' || c = '\'' || c = '(' ||
  c = ')' || c = '*' || c = '+' || c = ',' || c = ';' || c = '=' ||
  c = ':' || c = '@' || c = '%'

/-- Conservative sufficient condition for an absolute http(s) URL string
with explicit path and no query or fragment that WHATWG URL parsing
round-trips verbatim (the shape of the configured frontend base URL).
`new URL` on strings outside this subset is modelled as throwing. -/
def isNormalizedBaseUrl (s : String) : Bool :=
  match schemeRest s with
  | none => false
  | some rest =>
    let auth := rest.takeWhile (fun c => c ≠ '/')
    let path := rest.drop auth.length
    !auth.isEmpty && auth.all isAuthorityChar &&
    !path.isEmpty && path.all isPathChar

/-- The handler's possible results: a plain response, a `302`-style
redirect, or an exception escaping the handler (`Resp.thrown` models a
platform `TypeError` reaching the runtime uncaught). -/
inductive Resp
  | plain (status : Nat) (body : String)
  | redirect (url : String) (status : Nat)
  | thrown
deriving DecidableEq

/-- One outbound network request of the handler: the POST to the token
endpoint (recorded with its form body) or the GET of the JWKS document. -/
inductive NetCall
  | tokenPost (body : String)
  | jwksGet
deriving DecidableEq

/-- One JWKS entry: its optional `kid` and its key material, abstracted
to an identifier consumed by the `verify` oracle. -/
structure Jwk where
  kid : Option String
  key : Nat
deriving DecidableEq

/-- Everything outside the handler that a single request can observe:
the two upstream responses and the engine's JSON and WebCrypto
primitives, as oracles.

* `tokenAccess`: `none` means the token-exchange body is not JSON
  (`json()` throws); `some a` is the parsed body's `access_token` field,
  itself `none` when absent.
* `jwksKeys`: `none` means the JWKS body is not JSON; `some none` a JSON
  document failing the object/array shape check; `some (some ks)` the
  `keys` array.
* `parseHeaderKid bs`: result of `JSON.parse` on the decoded header
  bytes followed by reading `.kid` — `none` when parsing (or the
  property access) throws, otherwise the `kid` value (`none` when the
  field is absent).
* `parsePayloadOk bs`: whether `JSON.parse` succeeds on the decoded
  payload bytes.
* `importOk` / `verify`: `crypto.subtle.importKey` success and the
  boolean result of `crypto.subtle.verify` on key, signature bytes and
  the signed text. -/
structure World where
  tokenStatus : Nat
  tokenAccess : Option (Option String)
  jwksStatus : Nat
  jwksKeys : Option (Option (List Jwk))
  parseHeaderKid : List Nat → Option (Option String)
  parsePayloadOk : List Nat → Bool
  importOk : Jwk → Bool
  verify : Jwk → List Nat → String → Bool

/-- The worker's environment bindings; `none` models an unset variable. -/
structure Env where
  EPIC_CLIENT_ID : Option String
  EPIC_CLIENT_SECRET : Option String
  REDIRECT_URI : Option String
  FRONTEND_URL : Option String

/-- The inbound request: its path and the value of the `code` query
parameter as `url.searchParams.get` returns it (`none` when absent). -/
structure Req where
  path : String
  code : Option String

/-- JS falsiness of an optional string: `undefined` and the empty string
are falsy. -/
def optFalsy : Option String → Bool
  | none => true
  | some s => s == ""

/-- `Response.ok`: HTTP status in the 200–299 range. -/
def httpOk (status : Nat) : Bool :=
  decide (200 ≤ status) && decide (status < 300)

/-- The token-exchange POST body, exactly as the source interpolates it:
the code is inserted verbatim while only the redirect URI passes through
`encodeURIComponent`. -/
def exchangeBody (code redirectUri : String) : String :=
  "grant_type=authorization_code&code=" ++ code ++ "&redirect_uri=" ++
    encodeURIComponent redirectUri

/-- Error redirect toward the frontend: `new URL(FRONTEND_URL)` followed
by `searchParams.set("epic_login_error", reason)`; throws when the
frontend URL does not parse. -/
def errorRedirect (frontendUrl reason : String) : Resp :=
  if isNormalizedBaseUrl frontendUrl then
    .redirect (frontendUrl ++ "?epic_login_error=" ++ formUrlEncode reason) 302
  else .thrown

/-- Success redirect toward the frontend: `new URL(FRONTEND_URL)`
followed by assigning `url.hash`; throws when the frontend URL does not
parse. -/
def successRedirect (frontendUrl token : String) : Resp :=
  if isNormalizedBaseUrl frontendUrl then
    .redirect (frontendUrl ++ "#" ++ encodeFragment ("epic_jwt=" ++ token)) 302
  else .thrown

/-- The success path's final lines: `JSON.parse(safeBase64UrlDecode(payloadB64))`
for diagnostics, then the success redirect; a decode or parse fault is an
exception reaching the `catch` block.  The decoded payload is taken as an
argument so that reduction theorems can case on it. -/
def payloadStep (frontendUrl jwtToken : String) (w : World)
    (decoded : Except String (List Nat)) : Except String Resp :=
  match decoded with
  | .error m => .error m
  | .ok payloadBytes =>
    if (w.parsePayloadOk payloadBytes) = false then .error "invalid payload json"
    else .ok (successRedirect frontendUrl jwtToken)

/-- The signature conversion and `crypto.subtle.verify` call, as a
function of the base64-decoded signature bytes (`none` models the `atob`
throw on bad signature base64). -/
def sigStep (frontendUrl jwtToken headerB64 payloadB64 : String) (w : World)
    (jwk : Jwk) (sig : Option (List Nat)) : Except String Resp :=
  match sig with
  | none => .error "invalid signature base64"
  | some signatureBytes =>
    if (w.verify jwk signatureBytes (headerB64 ++ "." ++ payloadB64)) = false then
      .ok (errorRedirect frontendUrl "JWT verification failed")
    else payloadStep frontendUrl jwtToken w (safeBase64UrlDecode payloadB64)

/-- The verification tail of the callback (key import, signature check
and the diagnostic payload decode), as a function of the key-lookup
result — the lines of the `try` block after `keys.find(...)`.  An
`.error` result is an exception reaching the `catch` block. -/
def verifyTail (frontendUrl jwtToken headerB64 payloadB64 signatureB64 : String)
    (w : World) (found : Option Jwk) : Except String Resp :=
  match found with
  | none => .ok (errorRedirect frontendUrl "Public key not found")
  | some jwk =>
    if (w.importOk jwk) = false then .error "importKey failed"
    else sigStep frontendUrl jwtToken headerB64 payloadB64 w jwk
      (atobBytes (padB64 (substB64Url signatureB64)))

/-- The body of the callback route's `try` block, from the token
exchange onward: an `.error` result is an exception reaching the `catch`
block; the network calls made so far are returned alongside. -/
def callbackCore (redirectUri frontendUrl code : String) (w : World) :
    Except String Resp × List NetCall :=
  let calls := [NetCall.tokenPost (exchangeBody code redirectUri)]
  if (httpOk w.tokenStatus) = false then
    (.ok (errorRedirect frontendUrl ("Token exchange failed: " ++ toString w.tokenStatus)), calls)
  else
    match w.tokenAccess with
    | none => (.error "invalid json body", calls)
    | some acc =>
      let jwtToken := acc.getD ""
      if jwtToken = "" then
        (.ok (errorRedirect frontendUrl "Missing token in response"), calls)
      else
        let parts := jsSplit '.' jwtToken
        if parts.length ≠ 3 then
          (.ok (errorRedirect frontendUrl "Invalid JWT format"), calls)
        else
          let headerB64 := parts.getD 0 ""
          let payloadB64 := parts.getD 1 ""
          let signatureB64 := parts.getD 2 ""
          match safeBase64UrlDecode headerB64 with
          | .error m => (.error m, calls)
          | .ok headerBytes =>
            match w.parseHeaderKid headerBytes with
            | none => (.error "invalid header json", calls)
            | some kid =>
              let calls := calls ++ [NetCall.jwksGet]
              if (httpOk w.jwksStatus) = false then
                (.ok (errorRedirect frontendUrl "Failed to fetch JWKS"), calls)
              else
                match w.jwksKeys with
                | none => (.error "invalid jwks json", calls)
                | some none =>
                  (.ok (errorRedirect frontendUrl "Invalid JWKS format"), calls)
                | some (some keys) =>
                  (verifyTail frontendUrl jwtToken headerB64 payloadB64 signatureB64 w
                    (keys.find? (fun k => k.kid == kid)), calls)

/-- The `/callback` route: the missing-code check, then the `try` block
with its `catch` converting a thrown error into the server-error
redirect. -/
def callbackRoute (redirectUri frontendUrl : String) (code : Option String) (w : World) :
    Resp × List NetCall :=
  if optFalsy code then
    (errorRedirect frontendUrl "Missing authorization code", [])
  else
    match callbackCore redirectUri frontendUrl (code.getD "") w with
    | (.ok r, calls) => (r, calls)
    | (.error m, calls) => (errorRedirect frontendUrl ("Server error: " ++ m), calls)

/-- The worker's `fetch` handler: environment validation, then the
`/`, `/login` and `/callback` routes, then `404`. -/
def fetchHandler (env : Env) (req : Req) (w : World) : Resp × List NetCall :=
  if optFalsy env.EPIC_CLIENT_ID || optFalsy env.EPIC_CLIENT_SECRET then
    (.plain 500 "Server configuration error: Missing client credentials.", [])
  else if optFalsy env.REDIRECT_URI then
    (.plain 500 "Server configuration error: Missing redirect URI.", [])
  else if optFalsy env.FRONTEND_URL then
    (.plain 500 "Server configuration error: Missing frontend URL.", [])
  else
    let CLIENT_ID := env.EPIC_CLIENT_ID.getD ""
    let REDIRECT_URI := env.REDIRECT_URI.getD ""
    let FRONTEND_URL := env.FRONTEND_URL.getD ""
    if req.path = "/" then
      (.plain 200 "Ready to authenticate with Epic Games. Go to <a href=\"/login\">/login</a>", [])
    else if req.path = "/login" then
      (.redirect ("https://www.epicgames.com/id/authorize?client_id=" ++ CLIENT_ID ++
        "&response_type=code&redirect_uri=" ++ encodeURIComponent REDIRECT_URI) 302, [])
    else if req.path = "/callback" then
      callbackRoute REDIRECT_URI FRONTEND_URL req.code w
    else
      (.plain 404 "Not Found", [])

/-! ## Concrete fixtures used by witnesses and counterexamples

The oracle fields of each fixture world are constant functions; each is
honest at the argument the corresponding run evaluates it on (stated in
its doc comment). -/

/-- A fully configured environment with a normalized frontend base URL. -/
def env0 : Env :=
  ⟨some "cid", some "csecret", some "https://w.example/callback", some "https://app.example/"⟩

/-- The same environment with the frontend URL left unset. -/
def envNoFu : Env :=
  ⟨some "cid", some "csecret", some "https://w.example/callback", none⟩

/-- A callback request carrying the authorization code `abc`. -/
def reqCb : Req := ⟨"/callback", some "abc"⟩

/-- A world whose token exchange answers HTTP 400; nothing later is
reached. -/
def w400 : World :=
  ⟨400, none, 0, none, fun _ => none, fun _ => false, fun _ => false, fun _ _ _ => false⟩

/-- A world exchanging a token that is not three dot-separated segments;
nothing after the format check is reached. -/
def wBadFmt : World :=
  ⟨200, some (some "notajwt"), 0, none, fun _ => none, fun _ => false, fun _ => false,
   fun _ _ _ => false⟩

/-- A fully successful world for the token `e30.e30.QUJD`: the header and
payload segments decode to the two bytes of an empty JSON object, whose
`JSON.parse` succeeds with no `kid` property, and the single JWKS key has
no `kid` field, so the lookup matches (`undefined === undefined`). -/
def wSuccess : World :=
  ⟨200, some (some "e30.e30.QUJD"), 200, some (some [⟨none, 0⟩]),
   fun _ => some none, fun _ => true, fun _ => true, fun _ _ _ => true⟩

/-- As `wSuccess` but for the token `e30.eyJhIjoxfQ.QUJD`, whose payload
segment decodes to a one-field JSON object. -/
def wSuccess2 : World :=
  ⟨200, some (some "e30.eyJhIjoxfQ.QUJD"), 200, some (some [⟨none, 0⟩]),
   fun _ => some none, fun _ => true, fun _ => true, fun _ _ _ => true⟩

/-- As `wSuccess` but for the token `e30 .e30.QUJD`, whose header segment
carries a space (stripped by forgiving-base64, so it still decodes to the
empty JSON object). -/
def wSpace : World :=
  ⟨200, some (some "e30 .e30.QUJD"), 200, some (some [⟨none, 0⟩]),
   fun _ => some none, fun _ => true, fun _ => true, fun _ _ _ => true⟩

/-- As `wSuccess` but for the token `e30.!.QUJD`, whose payload segment
is not base64url data; the signature still verifies. -/
def wPayloadBad : World :=
  ⟨200, some (some "e30.!.QUJD"), 200, some (some [⟨none, 0⟩]),
   fun _ => some none, fun _ => false, fun _ => true, fun _ _ _ => true⟩

/-- As `wSuccess` but for the token `e30.QUJD.QUJD`, whose payload
segment decodes to the bytes of `ABC`, on which `JSON.parse` throws; the
signature still verifies. -/
def wPayloadNoJson : World :=
  ⟨200, some (some "e30.QUJD.QUJD"), 200, some (some [⟨none, 0⟩]),
   fun _ => some none, fun _ => false, fun _ => true, fun _ _ _ => true⟩

/-! ## Lemmas: base64url decode is a left inverse of base64url encode -/

theorem b64Index_b64CharOf (n : Nat) (h : n < 64) : b64Index (b64CharOf n) = some n :=
  (by decide : ∀ m : Fin 64, b64Index (b64CharOf m.val) = some m.val) ⟨n, h⟩

theorem substB64Char_b64UrlCharOf (n : Nat) (h : n < 64) :
    substB64Char (b64UrlCharOf n) = b64CharOf n :=
  (by decide : ∀ m : Fin 64, substB64Char (b64UrlCharOf m.val) = b64CharOf m.val) ⟨n, h⟩

theorem b64CharOf_not_ws (n : Nat) (h : n < 64) : isB64Ws (b64CharOf n) = false :=
  (by decide : ∀ m : Fin 64, isB64Ws (b64CharOf m.val) = false) ⟨n, h⟩

theorem b64CharOf_ne_eq (n : Nat) (h : n < 64) : b64CharOf n ≠ '=' :=
  (by decide : ∀ m : Fin 64, b64CharOf m.val ≠ '=') ⟨n, h⟩

theorem encodeB64Sextets_lt (bytes : List Nat) (h : ∀ b ∈ bytes, b < 256) :
    ∀ s ∈ encodeB64Sextets bytes, s < 64 := by
  match bytes with
  | [] => simp [encodeB64Sextets]
  | [a] =>
    have ha := h a (by simp)
    simp only [encodeB64Sextets, List.mem_cons, List.not_mem_nil, or_false]
    rintro s (rfl | rfl) <;> omega
  | [a, b] =>
    have ha := h a (by simp)
    have hb := h b (by simp)
    simp only [encodeB64Sextets, List.mem_cons, List.not_mem_nil, or_false]
    rintro s (rfl | rfl | rfl) <;> omega
  | a :: b :: c :: rest =>
    have ha := h a (by simp)
    have hb := h b (by simp)
    have hc := h c (by simp)
    have ih := encodeB64Sextets_lt rest (fun x hx => h x (by simp [hx]))
    simp only [encodeB64Sextets, List.mem_cons]
    rintro s (rfl | rfl | rfl | rfl | hs)
    · omega
    · omega
    · omega
    · omega
    · exact ih s hs

theorem encodeB64Sextets_len_mod (bytes : List Nat) :
    (encodeB64Sextets bytes).length % 4 ≠ 1 := by
  match bytes with
  | [] => simp [encodeB64Sextets]
  | [a] => simp [encodeB64Sextets]
  | [a, b] => simp [encodeB64Sextets]
  | a :: b :: c :: rest =>
    have ih := encodeB64Sextets_len_mod rest
    simp only [encodeB64Sextets, List.length_cons]
    omega

theorem decodeB64Chunks_encode (bytes : List Nat) (h : ∀ b ∈ bytes, b < 256) :
    decodeB64Chunks (encodeB64Sextets bytes) = some bytes := by
  match bytes with
  | [] => rfl
  | [a] =>
    have ha := h a (by simp)
    have e1 : a / 4 * 4 + a % 4 * 16 / 16 = a := by omega
    simp only [encodeB64Sextets, decodeB64Chunks, e1]
  | [a, b] =>
    have ha := h a (by simp)
    have hb := h b (by simp)
    have e1 : a / 4 * 4 + (a % 4 * 16 + b / 16) / 16 = a := by omega
    have e2 : (a % 4 * 16 + b / 16) % 16 * 16 + b % 16 * 4 / 4 = b := by omega
    simp only [encodeB64Sextets, decodeB64Chunks, e1, e2]
  | a :: b :: c :: rest =>
    have ha := h a (by simp)
    have hb := h b (by simp)
    have hc := h c (by simp)
    have ih := decodeB64Chunks_encode rest (fun x hx => h x (by simp [hx]))
    have e1 : a / 4 * 4 + (a % 4 * 16 + b / 16) / 16 = a := by omega
    have e2 : (a % 4 * 16 + b / 16) % 16 * 16 + (b % 16 * 4 + c / 64) / 4 = b := by omega
    have e3 : (b % 16 * 4 + c / 64) % 4 * 64 + c % 64 = c := by omega
    simp only [encodeB64Sextets, decodeB64Chunks, ih, e1, e2, e3]

theorem mapB64_map_b64CharOf (l : List Nat) (h : ∀ n ∈ l, n < 64) :
    mapB64 (l.map b64CharOf) = some l := by
  induction l with
  | nil => rfl
  | cons n rest ih =>
    have hn := h n (by simp)
    simp only [List.map_cons, mapB64, b64Index_b64CharOf n hn,
      ih (fun x hx => h x (by simp [hx]))]

theorem dropTrailingEq_append_replicate (l : List Char) (k : Nat) (hk : k ≤ 2)
    (hl : ∀ c ∈ l, c ≠ '=') : dropTrailingEq (l ++ List.replicate k '=') = l := by
  have hrev : (l ++ List.replicate k '=').reverse = List.replicate k '=' ++ l.reverse := by
    simp [List.reverse_append]
  have hhead : l.reverse.headD ' ' ≠ '=' := by
    cases hlr : l.reverse with
    | nil => simp
    | cons c rest =>
      have hc : c ∈ l := by
        have : c ∈ l.reverse := by rw [hlr]; simp
        simpa using this
      simpa using hl c hc
  interval_cases k
  · simp only [dropTrailingEq, List.replicate, List.append_nil]
    rw [if_neg hhead]
    simp
  · have e : (l ++ List.replicate 1 '=').reverse = '=' :: l.reverse := by simp
    simp only [dropTrailingEq, e, List.headD_cons, List.tail_cons, if_true]
    rw [if_neg hhead]
    simp
  · have e : (l ++ List.replicate 2 '=').reverse = '=' :: '=' :: l.reverse := by simp
    simp only [dropTrailingEq, e, List.headD_cons, List.tail_cons, if_true]
    simp

theorem base64UrlEncode_roundtrip (bytes : List Nat) (h : ∀ b ∈ bytes, b < 256) :
    safeBase64UrlDecode (base64UrlEncode bytes) = .ok bytes := by
  have hsx := encodeB64Sextets_lt bytes h
  have hchars : ∀ c ∈ (encodeB64Sextets bytes).map b64CharOf, c ≠ '=' := by
    intro c hc
    obtain ⟨n, hn, rfl⟩ := List.mem_map.mp hc
    exact b64CharOf_ne_eq n (hsx n hn)
  have hws : ∀ c ∈ (encodeB64Sextets bytes).map b64CharOf, (!isB64Ws c) = true := by
    intro c hc
    obtain ⟨n, hn, rfl⟩ := List.mem_map.mp hc
    simp [b64CharOf_not_ws n (hsx n hn)]
  have hsubst : substB64Url (base64UrlEncode bytes) =
      String.mk ((encodeB64Sextets bytes).map b64CharOf) := by
    unfold substB64Url base64UrlEncode
    congr 1
    rw [List.map_map]
    exact List.map_congr_left (fun n hn => substB64Char_b64UrlCharOf n (hsx n hn))
  have hLmod : ((encodeB64Sextets bytes).map b64CharOf).length % 4 ≠ 1 := by
    rw [List.length_map]
    exact encodeB64Sextets_len_mod bytes
  set cs := (encodeB64Sextets bytes).map b64CharOf with hcs
  set k := (4 - cs.length % 4) % 4 with hkdef
  have hk2 : k ≤ 2 := by omega
  have hpad : padB64 (String.mk cs) = String.mk (cs ++ List.replicate k '=') := by
    unfold padB64
    rfl
  have hfilter : (cs ++ List.replicate k '=').filter (fun c => !isB64Ws c) =
      cs ++ List.replicate k '=' := by
    rw [List.filter_eq_self]
    intro c hc
    rcases List.mem_append.mp hc with hcl | hcr
    · exact hws c hcl
    · rw [List.eq_of_mem_replicate hcr]
      decide
  have hlen0 : (cs ++ List.replicate k '=').length % 4 = 0 := by
    rw [List.length_append, List.length_replicate]
    omega
  have hdrop : dropTrailingEq (cs ++ List.replicate k '=') = cs :=
    dropTrailingEq_append_replicate cs k hk2 hchars
  have hmap : mapB64 cs = some (encodeB64Sextets bytes) :=
    mapB64_map_b64CharOf (encodeB64Sextets bytes) hsx
  have hatob : atobChars (cs ++ List.replicate k '=') = some bytes := by
    unfold atobChars
    simp only [hfilter, hlen0, hdrop, if_true]
    rw [if_neg hLmod, hmap]
    exact decodeB64Chunks_encode bytes h
  unfold safeBase64UrlDecode
  rw [hsubst, hpad]
  show (match atobChars (cs ++ List.replicate k '=') with
    | some b => Except.ok b
    | none => Except.error "Invalid base64url data") = Except.ok bytes
  rw [hatob]

/-! ## Lemmas: redirect URL shapes -/

theorem string_data_append (a b : String) : (a ++ b).data = a.data ++ b.data :=
  String.data_append a b

theorem appendQueryNeFrag (fu x y : String) :
    fu ++ "?epic_login_error=" ++ x ≠ fu ++ "#" ++ y := by
  intro h
  have hd := congrArg String.data h
  simp only [string_data_append, List.append_assoc] at hd
  have hcancel := List.append_cancel_left hd
  simp only [List.cons_append, List.singleton_append, List.nil_append] at hcancel
  injection hcancel with hhd _
  exact absurd hhd (by decide)

theorem errorRedirect_eq (fu r : String) (hfu : isNormalizedBaseUrl fu = true) :
    errorRedirect fu r = .redirect (fu ++ "?epic_login_error=" ++ formUrlEncode r) 302 := by
  unfold errorRedirect
  rw [if_pos hfu]

theorem successRedirect_eq (fu t : String) (hfu : isNormalizedBaseUrl fu = true) :
    successRedirect fu t = .redirect (fu ++ "#" ++ encodeFragment ("epic_jwt=" ++ t)) 302 := by
  unfold successRedirect
  rw [if_pos hfu]

theorem errorRedirect_ne_frag (fu r z : String) (hfu : isNormalizedBaseUrl fu = true) :
    errorRedirect fu r ≠ .redirect (fu ++ "#" ++ z) 302 := by
  rw [errorRedirect_eq fu r hfu]
  intro h
  rw [Resp.redirect.injEq] at h
  exact appendQueryNeFrag fu (formUrlEncode r) z h.1

/-! ## Lemmas: reduction of the handler on a valid configuration -/

theorem fetchHandler_callback (cid sec ru fu : String) (code : Option String) (w : World)
    (hcid : cid ≠ "") (hsec : sec ≠ "") (hru : ru ≠ "") (hfu : fu ≠ "") :
    fetchHandler ⟨some cid, some sec, some ru, some fu⟩ ⟨"/callback", code⟩ w =
      callbackRoute ru fu code w := by
  have h1 : (cid == "") = false := beq_eq_false_iff_ne.mpr hcid
  have h2 : (sec == "") = false := beq_eq_false_iff_ne.mpr hsec
  have h3 : (ru == "") = false := beq_eq_false_iff_ne.mpr hru
  have h4 : (fu == "") = false := beq_eq_false_iff_ne.mpr hfu
  simp only [fetchHandler, optFalsy, h1, h2, h3, h4, Bool.or_self, Option.getD_some]
  simp

theorem normalized_ne_empty (fu : String) (hfu : isNormalizedBaseUrl fu = true) :
    fu ≠ "" := by
  intro h
  rw [h] at hfu
  exact absurd hfu (by decide)

/-! ## Claim theorems -/

/-- Claim C9 (confirmed): whenever any of the four required settings is
absent (or empty, which the source's falsiness check treats alike), the
handler answers a plain 500 configuration-error response — not a
redirect — before any routing or network activity, on every path. -/
theorem missing_config_500_no_processing (env : Env) (req : Req) (w : World)
    (hcfg : (optFalsy env.EPIC_CLIENT_ID || optFalsy env.EPIC_CLIENT_SECRET ||
             optFalsy env.REDIRECT_URI || optFalsy env.FRONTEND_URL) = true) :
    ∃ msg, fetchHandler env req w = (.plain 500 msg, []) := by
  unfold fetchHandler
  by_cases hA : (optFalsy env.EPIC_CLIENT_ID || optFalsy env.EPIC_CLIENT_SECRET) = true
  · rw [if_pos hA]
    exact ⟨_, rfl⟩
  · rw [if_neg hA]
    by_cases hB : optFalsy env.REDIRECT_URI = true
    · rw [if_pos hB]
      exact ⟨_, rfl⟩
    · rw [if_neg hB]
      by_cases hC : optFalsy env.FRONTEND_URL = true
      · rw [if_pos hC]
        exact ⟨_, rfl⟩
      · exfalso
        simp only [Bool.or_eq_true] at hcfg hA
        rcases hcfg with ((h | h) | h) | h
        · exact hA (Or.inl h)
        · exact hA (Or.inr h)
        · exact hB h
        · exact hC h

/-- Witness for C9 at a concrete input: the frontend URL is unset and a
request to the root path is answered by a plain 500 with an empty trace. -/
theorem missing_config_500_witness :
    (optFalsy envNoFu.EPIC_CLIENT_ID || optFalsy envNoFu.EPIC_CLIENT_SECRET ||
     optFalsy envNoFu.REDIRECT_URI || optFalsy envNoFu.FRONTEND_URL) = true ∧
    ∃ msg, fetchHandler envNoFu ⟨"/", none⟩ w400 = (.plain 500 msg, []) :=
  ⟨by decide, missing_config_500_no_processing envNoFu ⟨"/", none⟩ w400 (by decide)⟩

/-- Claim C4 (corrected): when the `code` query parameter is absent or
empty, the handler performs no network call at all and redirects to the
frontend with `epic_login_error` set; a nonempty malformed code, however,
is still sent to the token endpoint (see the counterexample). -/
theorem missing_or_empty_code_no_exchange (cid sec ru fu : String)
    (codeParam : Option String) (w : World)
    (hcid : cid ≠ "") (hsec : sec ≠ "") (hru : ru ≠ "")
    (hfu : isNormalizedBaseUrl fu = true) (hcode : optFalsy codeParam = true) :
    fetchHandler ⟨some cid, some sec, some ru, some fu⟩ ⟨"/callback", codeParam⟩ w =
      (.redirect (fu ++ "?epic_login_error=" ++ formUrlEncode "Missing authorization code") 302,
       []) := by
  rw [fetchHandler_callback cid sec ru fu codeParam w hcid hsec hru (normalized_ne_empty fu hfu)]
  unfold callbackRoute
  rw [if_pos hcode, errorRedirect_eq fu _ hfu]

/-- Witness for C4's theorem at a concrete input: a callback request
without a `code` parameter. -/
theorem missing_code_witness :
    optFalsy none = true ∧
    fetchHandler ⟨some "cid", some "csecret", some "https://w.example/callback",
        some "https://app.example/"⟩ ⟨"/callback", none⟩ w400 =
      (.redirect ("https://app.example/" ++ "?epic_login_error=" ++
          formUrlEncode "Missing authorization code") 302, []) :=
  ⟨rfl, missing_or_empty_code_no_exchange "cid" "csecret" "https://w.example/callback"
    "https://app.example/" none w400 (by decide) (by decide) (by decide) (by decide) rfl⟩

/-- Counterexample to C4 as stated: the malformed (but nonempty)
authorization code `a&b` is POSTed verbatim to the token endpoint — the
claim's "never issues the POST ... for absent or malformed codes" fails
for every nonempty malformed code. -/
theorem nonempty_malformed_code_posted :
    (fetchHandler env0 ⟨"/callback", some "a&b"⟩ w400).2 =
      [NetCall.tokenPost (exchangeBody "a&b" "https://w.example/callback")] ∧
    (fetchHandler env0 ⟨"/callback", some "a&b"⟩ w400).2 ≠ [] := by
  constructor
  · decide
  · decide

theorem callbackRoute_some (ru fu c : String) (w : World) (hc : c ≠ "") :
    callbackRoute ru fu (some c) w =
      match callbackCore ru fu c w with
      | (.ok r, calls) => (r, calls)
      | (.error m, calls) => (errorRedirect fu ("Server error: " ++ m), calls) := by
  unfold callbackRoute
  have hcode : optFalsy (some c) = false := by
    simp only [optFalsy]
    exact beq_eq_false_iff_ne.mpr hc
  rw [if_neg (by simp [hcode])]
  rfl

/-- Claim C5 (corrected): a non-2xx token-exchange status S yields an
error redirect whose reason carries S and no JWKS fetch is performed; but
the reason is serialized per `application/x-www-form-urlencoded`, so for
S = 400 the target reads `Token+exchange+failed%3A+400`, not the claim's
`Token%20exchange%20failed%3A%20400`. -/
theorem exchange_failure_redirect_and_no_jwks (cid sec ru fu c : String) (w : World)
    (hcid : cid ≠ "") (hsec : sec ≠ "") (hru : ru ≠ "")
    (hfu : isNormalizedBaseUrl fu = true) (hc : c ≠ "")
    (hst : httpOk w.tokenStatus = false) :
    fetchHandler ⟨some cid, some sec, some ru, some fu⟩ ⟨"/callback", some c⟩ w =
      (.redirect (fu ++ "?epic_login_error=" ++
          formUrlEncode ("Token exchange failed: " ++ toString w.tokenStatus)) 302,
       [NetCall.tokenPost (exchangeBody c ru)]) := by
  rw [fetchHandler_callback cid sec ru fu (some c) w hcid hsec hru (normalized_ne_empty fu hfu),
      callbackRoute_some ru fu c w hc]
  have hcore : callbackCore ru fu c w =
      (.ok (errorRedirect fu ("Token exchange failed: " ++ toString w.tokenStatus)),
       [NetCall.tokenPost (exchangeBody c ru)]) := by
    unfold callbackCore
    rw [if_pos hst]
  rw [hcore, errorRedirect_eq fu _ hfu]

/-- Witness for C5's theorem at a concrete input: upstream status 400. -/
theorem exchange_failure_witness :
    httpOk w400.tokenStatus = false ∧
    fetchHandler ⟨some "cid", some "csecret", some "https://w.example/callback",
        some "https://app.example/"⟩ ⟨"/callback", some "abc"⟩ w400 =
      (.redirect ("https://app.example/" ++ "?epic_login_error=" ++
          formUrlEncode ("Token exchange failed: " ++ toString w400.tokenStatus)) 302,
       [NetCall.tokenPost (exchangeBody "abc" "https://w.example/callback")]) :=
  ⟨rfl, exchange_failure_redirect_and_no_jwks "cid" "csecret" "https://w.example/callback"
    "https://app.example/" "abc" w400 (by decide) (by decide) (by decide) (by decide)
    (by decide) rfl⟩

/-- Counterexample to C5 as stated: on status 400 the redirect target is
the `+`-encoded serialization, not the claimed
`{FRONTEND_URL}?epic_login_error=Token%20exchange%20failed%3A%20400`. -/
theorem exchange_400_redirect_uses_plus_encoding :
    (fetchHandler env0 reqCb w400).1 =
      .redirect "https://app.example/?epic_login_error=Token+exchange+failed%3A+400" 302 ∧
    (fetchHandler env0 reqCb w400).1 ≠
      .redirect "https://app.example/?epic_login_error=Token%20exchange%20failed%3A%20400" 302 := by
  constructor
  · decide
  · decide

/-- Claim C6 (corrected): a token that does not split into exactly three
dot-separated segments draws the `Invalid JWT format` error redirect and
no further network call — but the token-exchange POST has already been
issued at that point, so the trace is the singleton exchange call rather
than the claim's "no network calls". -/
theorem bad_format_redirect_only_exchange_call (cid sec ru fu c jwt : String) (w : World)
    (hcid : cid ≠ "") (hsec : sec ≠ "") (hru : ru ≠ "")
    (hfu : isNormalizedBaseUrl fu = true) (hc : c ≠ "")
    (hst : httpOk w.tokenStatus = true) (hacc : w.tokenAccess = some (some jwt))
    (hjwt : jwt ≠ "") (hsplit : (jsSplit '.' jwt).length ≠ 3) :
    fetchHandler ⟨some cid, some sec, some ru, some fu⟩ ⟨"/callback", some c⟩ w =
      (.redirect (fu ++ "?epic_login_error=" ++ formUrlEncode "Invalid JWT format") 302,
       [NetCall.tokenPost (exchangeBody c ru)]) := by
  rw [fetchHandler_callback cid sec ru fu (some c) w hcid hsec hru (normalized_ne_empty fu hfu),
      callbackRoute_some ru fu c w hc]
  have hcore : callbackCore ru fu c w =
      (.ok (errorRedirect fu "Invalid JWT format"), [NetCall.tokenPost (exchangeBody c ru)]) := by
    unfold callbackCore
    rw [hst]
    rw [if_neg (by simp), hacc]
    simp only [Option.getD_some]
    rw [if_neg hjwt, if_pos hsplit]
  rw [hcore, errorRedirect_eq fu _ hfu]

/-- Witness for C6's theorem at a concrete input: the exchanged token is
`notajwt`, which has a single segment. -/
theorem bad_format_witness :
    (jsSplit '.' "notajwt").length ≠ 3 ∧
    fetchHandler ⟨some "cid", some "csecret", some "https://w.example/callback",
        some "https://app.example/"⟩ ⟨"/callback", some "abc"⟩ wBadFmt =
      (.redirect ("https://app.example/" ++ "?epic_login_error=" ++
          formUrlEncode "Invalid JWT format") 302,
       [NetCall.tokenPost (exchangeBody "abc" "https://w.example/callback")]) :=
  ⟨by decide, bad_format_redirect_only_exchange_call "cid" "csecret"
    "https://w.example/callback" "https://app.example/" "abc" "notajwt" wBadFmt
    (by decide) (by decide) (by decide) (by decide) (by decide) (by decide) rfl
    (by decide) (by decide)⟩

/-- Counterexample to C6 as stated: on a one-segment token the handler
does redirect with the format error, yet its network trace is nonempty —
the token-exchange POST has been performed. -/
theorem bad_format_trace_nonempty :
    (fetchHandler env0 reqCb wBadFmt).1 =
      .redirect "https://app.example/?epic_login_error=Invalid+JWT+format" 302 ∧
    (fetchHandler env0 reqCb wBadFmt).2 ≠ [] := by
  constructor
  · decide
  · decide

/-! ## Lemmas: the form body a receiving server parses -/

theorem mem_splitOnChar_not_sep (sep : Char) :
    ∀ (l : List Char), ∀ g ∈ splitOnChar sep l, sep ∉ g := by
  intro l
  induction l with
  | nil =>
    intro g hg
    simp only [splitOnChar, List.mem_singleton] at hg
    simp [hg]
  | cons c rest ih =>
    intro g hg
    simp only [splitOnChar] at hg
    by_cases hcs : c = sep
    · rw [if_pos hcs] at hg
      rcases List.mem_cons.mp hg with rfl | hg'
      · simp
      · exact ih g hg'
    · rw [if_neg hcs] at hg
      rcases hgr : splitOnChar sep rest with _ | ⟨g0, gs⟩
      · rw [hgr] at hg
        simp only [List.mem_singleton] at hg
        subst hg
        simp only [List.mem_singleton]
        exact fun h => hcs h.symm
      · rw [hgr] at hg
        rcases List.mem_cons.mp hg with rfl | hg'
        · intro hmem
          rcases List.mem_cons.mp hmem with h | h
          · exact hcs h.symm
          · exact ih g0 (hgr ▸ List.mem_cons_self g0 gs) h
        · exact ih g (hgr ▸ List.mem_cons_of_mem g0 hg')

theorem splitFirstEq_snd_sub : ∀ (g : List Char), ∀ c ∈ (splitFirstEq g).2, c ∈ g := by
  intro g
  induction g with
  | nil =>
    intro c hc
    simp [splitFirstEq] at hc
  | cons d rest ih =>
    intro c hc
    simp only [splitFirstEq] at hc
    by_cases hd : d = '='
    · rw [if_pos hd] at hc
      exact List.mem_cons_of_mem d hc
    · rw [if_neg hd] at hc
      exact List.mem_cons_of_mem d (ih c hc)

theorem formValues_no_sep (k body : String) : ∀ v ∈ formValues k body, '&' ∉ v.data := by
  intro v hv
  simp only [formValues, formPairs, List.mem_map, List.mem_filter] at hv
  obtain ⟨⟨n0, v0⟩, ⟨⟨g, ⟨hg, _⟩, hmk⟩, _⟩, hv0⟩ := hv
  have hnosep := mem_splitOnChar_not_sep '&' body.data g hg
  have hveq : v.data = (splitFirstEq g).2 := by
    rw [← hv0]
    have h2 : v0 = String.mk (splitFirstEq g).2 := (congrArg Prod.snd hmk).symm
    rw [h2]
  rw [hveq]
  intro hmem
  exact hnosep (splitFirstEq_snd_sub g '&' hmem)

theorem callbackCore_calls_head (ru fu c : String) (w : World) :
    (callbackCore ru fu c w).2.head? = some (NetCall.tokenPost (exchangeBody c ru)) := by
  simp only [callbackCore]
  repeat' split
  all_goals rfl

theorem callbackRoute_calls (ru fu c : String) (w : World) (hc : c ≠ "") :
    (callbackRoute ru fu (some c) w).2 = (callbackCore ru fu c w).2 := by
  rw [callbackRoute_some ru fu c w hc]
  cases hres : callbackCore ru fu c w with
  | mk er calls =>
    cases er <;> rfl

/-- Claim C10 (corrected): the token-exchange body is the literal
concatenation with the authorization code interpolated un-encoded, and a
code containing `&` splits into extra form parameters, so the values the
provider reads for `code` cannot be the single intended one.  The claim's
further example `=` is wrong, however: a code containing only `=` still
parses back to the intended single value, because form parsing splits a
pair at its first `=` only (see the counterexample). -/
theorem exchange_body_literal_and_amp_breaks_params (cid sec ru fu c : String) (w : World)
    (hcid : cid ≠ "") (hsec : sec ≠ "") (hru : ru ≠ "") (hfu : fu ≠ "")
    (hc : c ≠ "") (hamp : '&' ∈ c.data) :
    (fetchHandler ⟨some cid, some sec, some ru, some fu⟩ ⟨"/callback", some c⟩ w).2.head? =
      some (NetCall.tokenPost (exchangeBody c ru)) ∧
    exchangeBody c ru =
      "grant_type=authorization_code&code=" ++ c ++ "&redirect_uri=" ++
        encodeURIComponent ru ∧
    formValues "code" (exchangeBody c ru) ≠ [c] := by
  refine ⟨?_, rfl, ?_⟩
  · rw [fetchHandler_callback cid sec ru fu (some c) w hcid hsec hru hfu,
        callbackRoute_calls ru fu c w hc]
    exact callbackCore_calls_head ru fu c w
  · intro h
    have hcmem : c ∈ formValues "code" (exchangeBody c ru) := by
      rw [h]
      exact List.mem_singleton_self c
    exact formValues_no_sep "code" (exchangeBody c ru) c hcmem hamp

/-- Witness for C10's theorem at a concrete input: the code `ab&cd`. -/
theorem amp_code_witness :
    ('&' ∈ "ab&cd".data) ∧
    ((fetchHandler ⟨some "cid", some "csecret", some "https://w.example/callback",
        some "https://app.example/"⟩ ⟨"/callback", some "ab&cd"⟩ w400).2.head? =
      some (NetCall.tokenPost (exchangeBody "ab&cd" "https://w.example/callback")) ∧
    exchangeBody "ab&cd" "https://w.example/callback" =
      "grant_type=authorization_code&code=" ++ "ab&cd" ++ "&redirect_uri=" ++
        encodeURIComponent "https://w.example/callback" ∧
    formValues "code" (exchangeBody "ab&cd" "https://w.example/callback") ≠ ["ab&cd"]) :=
  ⟨by decide, exchange_body_literal_and_amp_breaks_params "cid" "csecret"
    "https://w.example/callback" "https://app.example/" "ab&cd" w400
    (by decide) (by decide) (by decide) (by decide) (by decide) (by decide)⟩

/-- Counterexample to C10 as stated: the code `x=y` contains the
form-separator character `=`, yet the body parses back to exactly the
intended single `code` value. -/
theorem eq_in_code_params_match_intended :
    ('=' ∈ "x=y".data) ∧
    formValues "code" (exchangeBody "x=y" "https://w.example/callback") = ["x=y"] := by
  constructor
  · decide
  · decide

/-! ## Lemmas: catalogue of callback outcomes -/

theorem verifyTail_ok_cases (fu jwt hB pB sB : String) (w : World) (found : Option Jwk) :
    ∀ r, verifyTail fu jwt hB pB sB w found = .ok r →
      (∃ reason, r = errorRedirect fu reason) ∨ r = successRedirect fu jwt := by
  intro r h
  simp only [verifyTail, sigStep, payloadStep] at h
  repeat' split at h
  all_goals simp only [Except.ok.injEq, reduceCtorEq] at h
  all_goals try exact Or.inl ⟨_, h.symm⟩
  exact Or.inr h.symm

theorem callbackCore_ok_cases (ru fu c : String) (w : World) :
    ∀ r calls, callbackCore ru fu c w = (.ok r, calls) →
      (∃ reason, r = errorRedirect fu reason) ∨
      (∃ jwt, w.tokenAccess = some (some jwt) ∧ r = successRedirect fu jwt) := by
  intro r calls h
  rcases hacc : w.tokenAccess with _ | (_ | jwt)
  · simp only [callbackCore, hacc] at h
    repeat' split at h
    all_goals simp only [Prod.mk.injEq, Except.ok.injEq, reduceCtorEq, false_and] at h
    all_goals exact Or.inl ⟨_, h.1.symm⟩
  · simp only [callbackCore, hacc, Option.getD_none] at h
    simp only [if_true] at h
    repeat' split at h
    all_goals simp only [Prod.mk.injEq, Except.ok.injEq, reduceCtorEq, false_and] at h
    all_goals exact Or.inl ⟨_, h.1.symm⟩
  · simp only [callbackCore, hacc, Option.getD_some] at h
    repeat' split at h
    all_goals simp only [Prod.mk.injEq, Except.ok.injEq, reduceCtorEq, false_and] at h
    all_goals try exact Or.inl ⟨_, h.1.symm⟩
    all_goals
      rcases verifyTail_ok_cases _ _ _ _ _ _ _ r h.1 with ⟨reason, rfl⟩ | rfl
    all_goals try exact Or.inl ⟨reason, rfl⟩
    all_goals exact Or.inr ⟨_, rfl, rfl⟩

theorem callbackRoute_cases (ru fu : String) (code : Option String) (w : World)
    (hfu : isNormalizedBaseUrl fu = true) :
    (∃ reason, (callbackRoute ru fu code w).1 =
        .redirect (fu ++ "?epic_login_error=" ++ formUrlEncode reason) 302) ∨
    (∃ jwt, w.tokenAccess = some (some jwt) ∧
      (callbackRoute ru fu code w).1 =
        .redirect (fu ++ "#" ++ encodeFragment ("epic_jwt=" ++ jwt)) 302) := by
  unfold callbackRoute
  by_cases hcode : optFalsy code = true
  · rw [if_pos hcode]
    exact Or.inl ⟨"Missing authorization code", errorRedirect_eq fu _ hfu⟩
  · rw [if_neg hcode]
    rcases hres : callbackCore ru fu (code.getD "") w with ⟨er, calls⟩
    cases er with
    | error m =>
      exact Or.inl ⟨"Server error: " ++ m, errorRedirect_eq fu _ hfu⟩
    | ok r =>
      rcases callbackCore_ok_cases ru fu (code.getD "") w r calls hres with
        ⟨reason, rfl⟩ | ⟨jwt, hjwt, rfl⟩
      · exact Or.inl ⟨reason, errorRedirect_eq fu _ hfu⟩
      · exact Or.inr ⟨jwt, hjwt, successRedirect_eq fu _ hfu⟩

/-- Claim C3 (confirmed): with the frontend base URL configured as a
well-formed URL (the only datum the error paths themselves depend on),
no request and no pair of upstream responses can make the handler's
single request-handling operation rethrow: every failure is converted to
a redirect (or, for configuration faults, a plain 500) before it can
escape.  The hypothesis is needed because `new URL(FRONTEND_URL)` itself
would throw on an unparseable frontend URL. -/
theorem handler_never_throws (env : Env) (req : Req) (w : World)
    (hfu : ∀ s, env.FRONTEND_URL = some s → isNormalizedBaseUrl s = true) :
    (fetchHandler env req w).1 ≠ Resp.thrown := by
  unfold fetchHandler
  by_cases hA : (optFalsy env.EPIC_CLIENT_ID || optFalsy env.EPIC_CLIENT_SECRET) = true
  · rw [if_pos hA]
    simp
  · rw [if_neg hA]
    by_cases hB : optFalsy env.REDIRECT_URI = true
    · rw [if_pos hB]
      simp
    · rw [if_neg hB]
      by_cases hC : optFalsy env.FRONTEND_URL = true
      · rw [if_pos hC]
        simp
      · rw [if_neg hC]
        have hfuN : isNormalizedBaseUrl (env.FRONTEND_URL.getD "") = true := by
          cases hE : env.FRONTEND_URL with
          | none => rw [hE] at hC; exact absurd rfl hC
          | some s => exact hfu s hE
        by_cases hp1 : req.path = "/"
        · rw [if_pos hp1]
          simp
        · rw [if_neg hp1]
          by_cases hp2 : req.path = "/login"
          · rw [if_pos hp2]
            simp
          · rw [if_neg hp2]
            by_cases hp3 : req.path = "/callback"
            · rw [if_pos hp3]
              rcases callbackRoute_cases (env.REDIRECT_URI.getD "") (env.FRONTEND_URL.getD "")
                  req.code w hfuN with ⟨r0, hr⟩ | ⟨t0, _, hr⟩ <;>
                (rw [hr]; simp)
            · rw [if_neg hp3]
              simp

/-- Witness for C3 at a concrete input: a callback request against a
failing exchange does not throw. -/
theorem handler_never_throws_witness :
    (fetchHandler ⟨some "cid", some "csecret", some "https://w.example/callback",
        some "https://app.example/"⟩ ⟨"/callback", some "abc"⟩ w400).1 ≠ Resp.thrown :=
  handler_never_throws _ ⟨"/callback", some "abc"⟩ w400
    (fun s hs => by
      rw [show s = "https://app.example/" from (Option.some.inj hs).symm]
      decide)

theorem foldr_keep_of_safe (l : List Char) (h : ∀ c ∈ l, fragmentSafe c = true) :
    l.foldr (fun c acc =>
      (if fragmentSafe c then [c] else (utf8Bytes c).flatMap percentByte) ++ acc) [] = l := by
  induction l with
  | nil => rfl
  | cons c rest ih =>
    simp only [List.foldr_cons, if_pos (h c (List.mem_cons_self c rest)),
      ih (fun x hx => h x (List.mem_cons_of_mem c hx)), List.singleton_append]

theorem encodeFragment_of_safe (s : String) (h : ∀ c ∈ s.data, fragmentSafe c = true) :
    encodeFragment s = s := by
  unfold encodeFragment
  have hfil : s.data.filter (fun c => c.toNat ≠ 9 && c.toNat ≠ 10 && c.toNat ≠ 13) = s.data := by
    rw [List.filter_eq_self]
    intro c hc
    have hsafe := h c hc
    simp only [fragmentSafe, Bool.and_eq_true, decide_eq_true_eq] at hsafe
    simp only [Bool.and_eq_true, decide_eq_true_eq]
    omega
  rw [hfil, foldr_keep_of_safe s.data h]

/-- Claim C2 (corrected): on `/callback` with a valid configuration,
every outcome is either an error redirect to
`{baseURL}?epic_login_error={reason}` with the reason serialized per
`application/x-www-form-urlencoded`, or a success redirect to
`{baseURL}#epic_jwt={token}` where the token is the string from the
token-exchange response, percent-encoded with the URL fragment encode
set — which leaves the token raw and unmodified exactly when all its
characters are fragment-safe (true of every well-formed JWT, but not of
every verifiable token: see the counterexample). -/
theorem callback_redirect_contract (cid sec ru fu : String) (code : Option String) (w : World)
    (hcid : cid ≠ "") (hsec : sec ≠ "") (hru : ru ≠ "")
    (hfu : isNormalizedBaseUrl fu = true) :
    (∃ reason, (fetchHandler ⟨some cid, some sec, some ru, some fu⟩ ⟨"/callback", code⟩ w).1 =
        .redirect (fu ++ "?epic_login_error=" ++ formUrlEncode reason) 302) ∨
    (∃ jwt, w.tokenAccess = some (some jwt) ∧
      (fetchHandler ⟨some cid, some sec, some ru, some fu⟩ ⟨"/callback", code⟩ w).1 =
        .redirect (fu ++ "#" ++ encodeFragment ("epic_jwt=" ++ jwt)) 302 ∧
      ((∀ ch ∈ jwt.data, fragmentSafe ch = true) →
        encodeFragment ("epic_jwt=" ++ jwt) = "epic_jwt=" ++ jwt)) := by
  rw [fetchHandler_callback cid sec ru fu code w hcid hsec hru (normalized_ne_empty fu hfu)]
  rcases callbackRoute_cases ru fu code w hfu with ⟨reason, hr⟩ | ⟨jwt, hjwt, hr⟩
  · exact Or.inl ⟨reason, hr⟩
  · refine Or.inr ⟨jwt, hjwt, hr, fun hsafe => ?_⟩
    apply encodeFragment_of_safe
    rw [string_data_append]
    intro ch hch
    rcases List.mem_append.mp hch with hpre | hjw
    · exact (by decide : ∀ c ∈ "epic_jwt=".data, fragmentSafe c = true) ch hpre
    · exact hsafe ch hjw

/-- Witness for C2's theorem at a concrete input: the exchange fails
with status 400 and the outcome is the error side of the contract. -/
theorem callback_redirect_contract_witness :
    (∃ reason, (fetchHandler ⟨some "cid", some "csecret", some "https://w.example/callback",
        some "https://app.example/"⟩ ⟨"/callback", some "abc"⟩ w400).1 =
        .redirect ("https://app.example/" ++ "?epic_login_error=" ++ formUrlEncode reason) 302) ∨
    (∃ jwt, w400.tokenAccess = some (some jwt) ∧
      (fetchHandler ⟨some "cid", some "csecret", some "https://w.example/callback",
        some "https://app.example/"⟩ ⟨"/callback", some "abc"⟩ w400).1 =
        .redirect ("https://app.example/" ++ "#" ++ encodeFragment ("epic_jwt=" ++ jwt)) 302 ∧
      ((∀ ch ∈ jwt.data, fragmentSafe ch = true) →
        encodeFragment ("epic_jwt=" ++ jwt) = "epic_jwt=" ++ jwt)) :=
  callback_redirect_contract "cid" "csecret" "https://w.example/callback" "https://app.example/"
    (some "abc") w400 (by decide) (by decide) (by decide) (by decide)

/-- Counterexample to C2 as stated: a verifiable token whose header
segment contains a space (legal for `atob`, whose forgiving decode
strips ASCII whitespace) is issued percent-encoded in the fragment, so
the redirect target is not `{baseURL}#epic_jwt={token}` with the raw
token. -/
theorem success_redirect_encodes_space_in_token :
    (fetchHandler env0 reqCb wSpace).1 =
      .redirect "https://app.example/#epic_jwt=e30%20.e30.QUJD" 302 ∧
    (fetchHandler env0 reqCb wSpace).1 ≠
      .redirect ("https://app.example/" ++ "#epic_jwt=" ++ "e30 .e30.QUJD") 302 := by
  constructor
  · decide
  · decide

/-! ## Lemmas: reduction of the callback core at the key-lookup stage -/

theorem bool_eq_true_of_not_false (b : Bool) (h : ¬ b = false) : b = true := by
  cases b
  · exact absurd rfl h
  · rfl

theorem callbackCore_at_lookup (ru fu c jwt hB pB sB : String) (hbytes : List Nat)
    (kidv : Option String) (keys : List Jwk) (w : World)
    (hst : httpOk w.tokenStatus = true)
    (hacc : w.tokenAccess = some (some jwt)) (hjwt : jwt ≠ "")
    (hsplit : jsSplit '.' jwt = [hB, pB, sB])
    (hhdr : safeBase64UrlDecode hB = .ok hbytes)
    (hkid : w.parseHeaderKid hbytes = some kidv)
    (hjst : httpOk w.jwksStatus = true)
    (hkeys : w.jwksKeys = some (some keys)) :
    callbackCore ru fu c w =
      (verifyTail fu jwt hB pB sB w (List.find? (fun k => k.kid == kidv) keys),
       [NetCall.tokenPost (exchangeBody c ru)] ++ [NetCall.jwksGet]) := by
  simp only [callbackCore, hst, hacc, Option.getD_some, hjwt, hsplit, hhdr, hkid, hjst, hkeys,
    Bool.true_eq_false, if_false, List.length_cons, List.length_nil, ne_eq,
    List.getD_cons_zero, List.getD_cons_succ, not_false_eq_true, not_true_eq_false]

theorem callbackCore_success (ru fu c jwt hB pB sB : String)
    (hbytes sigBytes pbytes : List Nat) (kidv : Option String) (keys : List Jwk)
    (jwk : Jwk) (w : World)
    (hst : httpOk w.tokenStatus = true)
    (hacc : w.tokenAccess = some (some jwt)) (hjwt : jwt ≠ "")
    (hsplit : jsSplit '.' jwt = [hB, pB, sB])
    (hhdr : safeBase64UrlDecode hB = .ok hbytes)
    (hkid : w.parseHeaderKid hbytes = some kidv)
    (hjst : httpOk w.jwksStatus = true)
    (hkeys : w.jwksKeys = some (some keys))
    (hfind : List.find? (fun k => k.kid == kidv) keys = some jwk)
    (himp : w.importOk jwk = true)
    (hsig : atobBytes (padB64 (substB64Url sB)) = some sigBytes)
    (hver : w.verify jwk sigBytes (hB ++ "." ++ pB) = true)
    (hpb : safeBase64UrlDecode pB = .ok pbytes)
    (hpj : w.parsePayloadOk pbytes = true) :
    callbackCore ru fu c w =
      (.ok (successRedirect fu jwt),
       [NetCall.tokenPost (exchangeBody c ru), NetCall.jwksGet]) := by
  rw [callbackCore_at_lookup ru fu c jwt hB pB sB hbytes kidv keys w
      hst hacc hjwt hsplit hhdr hkid hjst hkeys, hfind]
  simp only [verifyTail, sigStep, payloadStep, himp, hsig, hver, hpb, hpj,
    Bool.true_eq_false, if_false, List.singleton_append]

/-- Claim C8 (corrected): the payload decode on the success path is
diagnostic in intent but required for the success redirect: when the
signature verifies against the matched key AND the payload segment
base64url-decodes and parses as JSON, the handler issues the success
redirect carrying the token; when the payload fails to decode or parse,
the resulting exception is caught and converted to an error redirect
instead (see the counterexample). -/
theorem verified_and_payload_parses_success (cid sec ru fu c jwt hB pB sB : String)
    (hbytes sigBytes pbytes : List Nat) (kidv : Option String) (keys : List Jwk)
    (jwk : Jwk) (w : World)
    (hcid : cid ≠ "") (hsec : sec ≠ "") (hru : ru ≠ "")
    (hfu : isNormalizedBaseUrl fu = true) (hc : c ≠ "")
    (hst : httpOk w.tokenStatus = true)
    (hacc : w.tokenAccess = some (some jwt)) (hjwt : jwt ≠ "")
    (hsplit : jsSplit '.' jwt = [hB, pB, sB])
    (hhdr : safeBase64UrlDecode hB = .ok hbytes)
    (hkid : w.parseHeaderKid hbytes = some kidv)
    (hjst : httpOk w.jwksStatus = true)
    (hkeys : w.jwksKeys = some (some keys))
    (hfind : List.find? (fun k => k.kid == kidv) keys = some jwk)
    (himp : w.importOk jwk = true)
    (hsig : atobBytes (padB64 (substB64Url sB)) = some sigBytes)
    (hver : w.verify jwk sigBytes (hB ++ "." ++ pB) = true)
    (hpb : safeBase64UrlDecode pB = .ok pbytes)
    (hpj : w.parsePayloadOk pbytes = true) :
    fetchHandler ⟨some cid, some sec, some ru, some fu⟩ ⟨"/callback", some c⟩ w =
      (.redirect (fu ++ "#" ++ encodeFragment ("epic_jwt=" ++ jwt)) 302,
       [NetCall.tokenPost (exchangeBody c ru), NetCall.jwksGet]) := by
  rw [fetchHandler_callback cid sec ru fu (some c) w hcid hsec hru (normalized_ne_empty fu hfu),
      callbackRoute_some ru fu c w hc,
      callbackCore_success ru fu c jwt hB pB sB hbytes sigBytes pbytes kidv keys jwk w
        hst hacc hjwt hsplit hhdr hkid hjst hkeys hfind himp hsig hver hpb hpj]
  rw [Prod.mk.injEq]
  exact ⟨successRedirect_eq fu jwt hfu, rfl⟩

/-- Witness for C8's theorem at a concrete input: the token
`e30.eyJhIjoxfQ.QUJD`, whose payload segment decodes to a JSON object,
verified by the oracle world `wSuccess2`. -/
theorem verified_payload_success_witness :
    fetchHandler ⟨some "cid", some "csecret", some "https://w.example/callback",
        some "https://app.example/"⟩ ⟨"/callback", some "abc"⟩ wSuccess2 =
      (.redirect ("https://app.example/" ++ "#" ++
          encodeFragment ("epic_jwt=" ++ "e30.eyJhIjoxfQ.QUJD")) 302,
       [NetCall.tokenPost (exchangeBody "abc" "https://w.example/callback"),
        NetCall.jwksGet]) :=
  verified_and_payload_parses_success "cid" "csecret" "https://w.example/callback"
    "https://app.example/" "abc" "e30.eyJhIjoxfQ.QUJD" "e30" "eyJhIjoxfQ" "QUJD"
    [123, 125] [65, 66, 67] [123, 34, 97, 34, 58, 49, 125] none [⟨none, 0⟩] ⟨none, 0⟩
    wSuccess2 (by decide) (by decide) (by decide) (by decide) (by decide) (by decide) rfl
    (by decide) (by decide) rfl rfl (by decide) rfl rfl rfl rfl rfl rfl rfl

/-- Counterexample to C8 as stated: in `wPayloadNoJson` the signature of
`e30.QUJD.QUJD` verifies against the matched key, but the payload decodes
to bytes that do not parse as JSON, and the handler does not issue the
success redirect. -/
theorem verified_but_payload_unparsable_no_success :
    wPayloadNoJson.verify ⟨none, 0⟩ [65, 66, 67] ("e30" ++ "." ++ "QUJD") = true ∧
    wPayloadNoJson.parsePayloadOk [65, 66, 67] = false ∧
    (fetchHandler env0 reqCb wPayloadNoJson).1 ≠
      .redirect ("https://app.example/" ++ "#epic_jwt=" ++ "e30.QUJD.QUJD") 302 := by
  refine ⟨rfl, rfl, ?_⟩
  decide

/-- Claim C1 (corrected): once a callback request has obtained a
three-segment token whose header decodes and yields a `kid`, and the key
set has been fetched in this same request, the token is forwarded via
the success redirect if and only if the signature segment decodes and
verifies against a key of that fetch whose `kid` equals the header's
`kid` AND the payload segment base64url-decodes and parses as JSON — the
diagnostic payload decode sits before the success redirect, so its
failure suppresses forwarding even for a verified token (see the
counterexample). -/
theorem callback_forwards_iff (cid sec ru fu c jwt hB pB sB : String)
    (hbytes : List Nat) (kidv : Option String) (keys : List Jwk) (w : World)
    (hcid : cid ≠ "") (hsec : sec ≠ "") (hru : ru ≠ "")
    (hfu : isNormalizedBaseUrl fu = true) (hc : c ≠ "")
    (hst : httpOk w.tokenStatus = true)
    (hacc : w.tokenAccess = some (some jwt)) (hjwt : jwt ≠ "")
    (hsplit : jsSplit '.' jwt = [hB, pB, sB])
    (hhdr : safeBase64UrlDecode hB = .ok hbytes)
    (hkid : w.parseHeaderKid hbytes = some kidv)
    (hjst : httpOk w.jwksStatus = true)
    (hkeys : w.jwksKeys = some (some keys)) :
    ((fetchHandler ⟨some cid, some sec, some ru, some fu⟩ ⟨"/callback", some c⟩ w).1 =
        .redirect (fu ++ "#" ++ encodeFragment ("epic_jwt=" ++ jwt)) 302)
    ↔ (∃ jwk, List.find? (fun k => k.kid == kidv) keys = some jwk ∧
        w.importOk jwk = true ∧
        (∃ sigBytes, atobBytes (padB64 (substB64Url sB)) = some sigBytes ∧
          w.verify jwk sigBytes (hB ++ "." ++ pB) = true) ∧
        (∃ pbytes, safeBase64UrlDecode pB = .ok pbytes ∧
          w.parsePayloadOk pbytes = true)) := by
  rw [fetchHandler_callback cid sec ru fu (some c) w hcid hsec hru (normalized_ne_empty fu hfu),
      callbackRoute_some ru fu c w hc,
      callbackCore_at_lookup ru fu c jwt hB pB sB hbytes kidv keys w
        hst hacc hjwt hsplit hhdr hkid hjst hkeys]
  cases hfind : List.find? (fun k => k.kid == kidv) keys with
  | none =>
    refine iff_of_false (errorRedirect_ne_frag fu _ _ hfu) ?_
    rintro ⟨jwk, hj, -⟩
    cases hj
  | some jwk =>
    simp only [verifyTail]
    by_cases himp : w.importOk jwk = false
    · rw [himp, if_pos rfl]
      refine iff_of_false (errorRedirect_ne_frag fu _ _ hfu) ?_
      rintro ⟨jwk', hj', himp', -⟩
      cases Option.some.inj hj'
      rw [himp'] at himp
      exact Bool.noConfusion himp
    · rw [bool_eq_true_of_not_false _ himp, if_neg (by decide : ¬((true : Bool) = false))]
      cases hsig : atobBytes (padB64 (substB64Url sB)) with
      | none =>
        refine iff_of_false (errorRedirect_ne_frag fu _ _ hfu) ?_
        rintro ⟨jwk', hj', -, ⟨sb, hsb, -⟩, -⟩
        cases hsb
      | some sigBytes =>
        simp only [sigStep]
        by_cases hver : w.verify jwk sigBytes (hB ++ "." ++ pB) = false
        · rw [hver, if_pos rfl]
          refine iff_of_false (errorRedirect_ne_frag fu _ _ hfu) ?_
          rintro ⟨jwk', hj', -, ⟨sb, hsb, hv⟩, -⟩
          cases Option.some.inj hj'
          cases Option.some.inj hsb
          rw [hv] at hver
          exact Bool.noConfusion hver
        · rw [bool_eq_true_of_not_false _ hver,
              if_neg (by decide : ¬((true : Bool) = false))]
          cases hpb : safeBase64UrlDecode pB with
          | error m =>
            refine iff_of_false (errorRedirect_ne_frag fu _ _ hfu) ?_
            rintro ⟨-, -, -, -, ⟨pb, hpb', -⟩⟩
            cases hpb'
          | ok pbytes =>
            simp only [payloadStep]
            by_cases hpj : w.parsePayloadOk pbytes = false
            · rw [hpj, if_pos rfl]
              refine iff_of_false (errorRedirect_ne_frag fu _ _ hfu) ?_
              rintro ⟨-, -, -, -, ⟨pb, hpb', hpj'⟩⟩
              cases Except.ok.inj hpb'
              rw [hpj'] at hpj
              exact Bool.noConfusion hpj
            · rw [bool_eq_true_of_not_false _ hpj,
                  if_neg (by decide : ¬((true : Bool) = false))]
              exact iff_of_true (successRedirect_eq fu jwt hfu)
                ⟨jwk, rfl, bool_eq_true_of_not_false _ himp,
                 ⟨sigBytes, rfl, bool_eq_true_of_not_false _ hver⟩,
                 ⟨pbytes, rfl, bool_eq_true_of_not_false _ hpj⟩⟩

/-- Witness for C1's theorem at a concrete input: the token
`e30.e30.QUJD` under the oracle world `wSuccess`, where both sides of the
equivalence hold. -/
theorem callback_forwards_iff_witness :
    ((fetchHandler ⟨some "cid", some "csecret", some "https://w.example/callback",
        some "https://app.example/"⟩ ⟨"/callback", some "abc"⟩ wSuccess).1 =
        .redirect ("https://app.example/" ++ "#" ++
          encodeFragment ("epic_jwt=" ++ "e30.e30.QUJD")) 302)
    ↔ (∃ jwk, List.find? (fun k => k.kid == (none : Option String)) [(⟨none, 0⟩ : Jwk)] =
          some jwk ∧
        wSuccess.importOk jwk = true ∧
        (∃ sigBytes, atobBytes (padB64 (substB64Url "QUJD")) = some sigBytes ∧
          wSuccess.verify jwk sigBytes ("e30" ++ "." ++ "e30") = true) ∧
        (∃ pbytes, safeBase64UrlDecode "e30" = .ok pbytes ∧
          wSuccess.parsePayloadOk pbytes = true)) :=
  callback_forwards_iff "cid" "csecret" "https://w.example/callback" "https://app.example/"
    "abc" "e30.e30.QUJD" "e30" "e30" "QUJD" [123, 125] none [⟨none, 0⟩] wSuccess
    (by decide) (by decide) (by decide) (by decide) (by decide) (by decide) rfl
    (by decide) (by decide) rfl rfl (by decide) rfl

/-- Counterexample to C1 as stated: in `wPayloadBad` the signature
segment of `e30.!.QUJD` decodes and verifies against the key matching the
header's `kid` within the freshly fetched key set, yet the token is not
forwarded — the payload segment `!` fails base64url decoding, so the
handler lands in the catch-all error redirect. -/
theorem verified_token_not_forwarded_on_payload_decode_failure :
    List.find? (fun k => k.kid == (none : Option String)) [(⟨none, 0⟩ : Jwk)] =
      some ⟨none, 0⟩ ∧
    atobBytes (padB64 (substB64Url "QUJD")) = some [65, 66, 67] ∧
    wPayloadBad.verify ⟨none, 0⟩ [65, 66, 67] ("e30" ++ "." ++ "!") = true ∧
    (fetchHandler env0 reqCb wPayloadBad).1 ≠
      .redirect ("https://app.example/" ++ "#epic_jwt=" ++ "e30.!.QUJD") 302 := by
  refine ⟨by decide, by decide, rfl, ?_⟩
  decide

/-- Claim C7 (confirmed): the source's `safeBase64UrlDecode` substitutes
`-` and `_` into the standard alphabet, tolerates the 0, 1 or 2 missing
padding characters of unpadded base64url, and decodes correctly: for
every byte string, decoding its base64url encoding returns exactly those
bytes. -/
theorem base64url_decode_encode_roundtrip (bytes : List Nat)
    (h : ∀ b ∈ bytes, b < 256) :
    safeBase64UrlDecode (base64UrlEncode bytes) = .ok bytes :=
  base64UrlEncode_roundtrip bytes h

/-- Witness for C7's theorem at concrete inputs covering the three
padding amounts: a one-byte, a two-byte and a three-byte string. -/
theorem base64url_roundtrip_witness :
    ((∀ b ∈ [104], b < 256) ∧
      safeBase64UrlDecode (base64UrlEncode [104]) = .ok [104]) ∧
    ((∀ b ∈ [104, 105], b < 256) ∧
      safeBase64UrlDecode (base64UrlEncode [104, 105]) = .ok [104, 105]) ∧
    ((∀ b ∈ [104, 105, 33], b < 256) ∧
      safeBase64UrlDecode (base64UrlEncode [104, 105, 33]) = .ok [104, 105, 33]) :=
  ⟨⟨by decide, base64url_decode_encode_roundtrip [104] (by decide)⟩,
   ⟨by decide, base64url_decode_encode_roundtrip [104, 105] (by decide)⟩,
   ⟨by decide, base64url_decode_encode_roundtrip [104, 105, 33] (by decide)⟩⟩
